import Mathlib

/-
  Verification of the sqllog-analysis plotting tools.

  The repository ships four small Python scripts under tools/:
  plot_datetime_bench.py, plot_duckdb_write_bench.py, plot_sqllog_bench.py and
  plot_sqllog_varied.py.  Each locates Criterion result files on disk, extracts
  one scalar point estimate from the parsed JSON, normalizes its unit by
  magnitude, aggregates the values into series and renders a chart.

  This file is a shallow embedding of those scripts.  JSON documents are a
  small inductive type (numbers as exact rationals, standing for the real
  values the Python floats approximate); the filesystem a run sees is explicit
  data; each script's top level becomes a function from a filesystem to either
  an abnormal termination (SystemExit / uncaught exception, both a nonzero
  process exit with no image written) or a run output carrying the aggregated
  results, the diagnostic log lines and the path of the written image.  Chart
  drawing itself (matplotlib calls) has no decision logic and is represented
  only by the recorded image path.
-/

/-- A parsed JSON document, the result of json.loads.  Numbers are modelled as
    exact rationals. -/
inductive Json where
  | null
  | bool (b : Bool)
  | num (v : ℚ)
  | str (s : String)
  | arr (elems : List Json)
  | obj (fields : List (String × Json))

/-- Python dict indexing and membership: the binding of a key in an object,
    fields in insertion order (keys of a parsed JSON object are unique). -/
def getKey : List (String × Json) → String → Option Json
  | [], _ => none
  | (k, v) :: rest, key => if k = key then some v else getKey rest key

/-- Python dict.get(k) as the scripts observe it: a missing key gives Python
    None, and a stored JSON null is Python None as well, so both collapse to
    none. -/
def getPy (fields : List (String × Json)) (key : String) : Option Json :=
  match getKey fields key with
  | some Json.null => none
  | some v => some v
  | none => none

/-- The generic fallback scan of the extractor block:
    for v in data.values(): if isinstance(v, dict) and 'point_estimate' in v:
    median = v['point_estimate']; break.
    The loop stops at the first value that is a dict containing the key; if
    that binding is JSON null the loop still breaks with median = None. -/
def scanValues : List (String × Json) → Option Json
  | [] => none
  | (_, Json.obj fs) :: rest =>
    if (getKey fs "point_estimate").isSome then getPy fs "point_estimate"
    else scanValues rest
  | _ :: rest => scanValues rest

/-- The estimate-extraction block that appears verbatim in all four scripts:
    prefer data['median']['point_estimate'] when data['median'] is a dict, else
    data['mean']['point_estimate'] when data['mean'] is a dict, else the first
    top-level dict value containing 'point_estimate'.  The result is the value
    of the Python variable median: none is Python None (case unresolved). -/
def extract_estimate (data : Json) : Option Json :=
  match data with
  | Json.obj fields =>
    match getKey fields "median" with
    | some (Json.obj m) => getPy m "point_estimate"
    | _ =>
      match getKey fields "mean" with
      | some (Json.obj m) => getPy m "point_estimate"
      | _ => scanValues fields
  | _ => none

/-- Python float(x) on a JSON value: numbers convert exactly, booleans to 1/0,
    anything else raises and kills the script (modelled as none).  float() on a
    numeric string would also succeed in Python; no Criterion estimate is
    stored as a string, and no input modelled here does so. -/
def pyFloat : Json → Option ℚ
  | Json.num v => some v
  | Json.bool b => some (if b then 1 else 0)
  | _ => none

/-- The magnitude-based unit normalization block shared by the scripts:
    if t > 1e6: t = t / 1e9  (assume nanoseconds)
    elif t > 1e3: t = t / 1e6  (assume microseconds)
    else unchanged (already seconds). -/
def normalizeUnits (t : ℚ) : ℚ :=
  if t > 1000000 then t / 1000000000
  else if t > 1000 then t / 1000000
  else t

/-- Accumulator for a run of decimal digits; fails on any non-digit. -/
def decDigitsAux : List Char → Nat → Option Nat
  | [], acc => some acc
  | c :: rest, acc =>
    if c.isDigit then decDigitsAux rest (acc * 10 + (c.toNat - 48)) else none

/-- Python int(s) on a directory name: an optional sign followed by a nonempty
    run of decimal digits; anything else raises ValueError (none here).  The
    whitespace/underscore liberality of Python int() is irrelevant to the
    directory names involved and is not modelled. -/
def pyInt (s : String) : Option Int :=
  match s.data with
  | [] => none
  | '-' :: rest =>
    match rest with
    | [] => none
    | _ => (decDigitsAux rest 0).map fun n => -(n : Int)
  | '+' :: rest =>
    match rest with
    | [] => none
    | _ => (decDigitsAux rest 0).map fun n => (n : Int)
  | cs => (decDigitsAux cs 0).map fun n => (n : Int)

/-- Code-point lexicographic comparison of character lists, the order Python
    uses to compare strings. -/
def charsLE : List Char → List Char → Bool
  | [], _ => true
  | _ :: _, [] => false
  | c :: cs, d :: ds =>
    if c.toNat < d.toNat then true
    else if d.toNat < c.toNat then false
    else charsLE cs ds

/-- Python string comparison a <= b, used by sorted() and list.sort(). -/
def strLE (a b : String) : Bool := charsLE a.data b.data

/-- A value is a key-value structure containing a point_estimate field. -/
def isObjWithPE : Json → Bool
  | Json.obj fs => (getKey fs "point_estimate").isSome
  | _ => false

/-- The extractor as the specification words it: ordered preference with first
    match winning, the third clause stated through List.find? as the first
    top-level value in insertion order that is a key-value structure containing
    the point_estimate field. -/
def claimExtract (fields : List (String × Json)) : Option Json :=
  match getKey fields "median" with
  | some (Json.obj m) => getPy m "point_estimate"
  | _ =>
    match getKey fields "mean" with
    | some (Json.obj m) => getPy m "point_estimate"
    | _ =>
      match fields.find? fun kv => isObjWithPE kv.2 with
      | some (_, Json.obj fs) => getPy fs "point_estimate"
      | _ => none

/-- An entry yielded by Path.iterdir: the child's name and whether it is a
    directory. -/
structure Entry where
  name : String
  isDir : Bool
deriving DecidableEq

/-- The filesystem a run sees: the existing directories, and the existing
    result files with their parsed JSON content.  The order of dirs and files
    is the on-disk enumeration order that iterdir yields.  A path is listed in
    files when path.exists() holds and the file parses as JSON: the scripts
    never separate the two for the result files they touch. -/
structure FS where
  dirs : List (List String)
  files : List (List String × Json)

/-- Content of the file at a path, none when no such file exists. -/
def fileLookup : List (List String × Json) → List String → Option Json
  | [], _ => none
  | (q, d) :: rest, p => if q = p then some d else fileLookup rest p

def FS.file (fs : FS) (p : List String) : Option Json := fileLookup fs.files p

/-- The name of d when d is an immediate child path of p. -/
def childName (p d : List String) : Option String :=
  if d.take p.length = p then
    match d.drop p.length with
    | [n] => some n
    | _ => none
  else none

/-- Path.iterdir: the immediate children of a directory, subdirectories and
    files, in on-disk enumeration order. -/
def FS.iterdir (fs : FS) (p : List String) : List Entry :=
  (fs.dirs.filterMap fun d => (childName p d).map fun n => Entry.mk n true) ++
  (fs.files.filterMap fun f => (childName p f.1).map fun n => Entry.mk n false)

/-- The two-layout result locator shared by all four scripts: try
    case/base/estimates.json first, else case/new/benchmark.json, else the
    case has no result file. -/
def locate (fs : FS) (caseDir : List String) : Option (List String) :=
  if (fs.file (caseDir ++ ["base", "estimates.json"])).isSome then
    some (caseDir ++ ["base", "estimates.json"])
  else if (fs.file (caseDir ++ ["new", "benchmark.json"])).isSome then
    some (caseDir ++ ["new", "benchmark.json"])
  else none

/-- What processing one case yields before aggregation: no result file under
    either layout, a file with no extractable point estimate, a point estimate
    float() cannot convert (the script dies), or the raw scalar. -/
inductive CaseOutcome where
  | missingFile
  | noEstimate
  | badValue
  | value (t : ℚ)
deriving DecidableEq

/-- Locate the case's result file, extract the estimate, convert with
    float(): the per-case pipeline each script runs before normalization. -/
def caseOutcome (fs : FS) (caseDir : List String) : CaseOutcome :=
  match locate fs caseDir with
  | none => CaseOutcome.missingFile
  | some p =>
    match fs.file p with
    | none => CaseOutcome.missingFile
    | some data =>
      match extract_estimate data with
      | none => CaseOutcome.noEstimate
      | some j =>
        match pyFloat j with
        | none => CaseOutcome.badValue
        | some t => CaseOutcome.value t

/-- Abnormal termination of a script: SystemExit with a message, or an
    uncaught exception out of float().  Both exit the process with nonzero
    status before any image is written. -/
inductive RunErr where
  | exit (msg : String)
  | exception
deriving DecidableEq

/-- Output of a completed run: the aggregated (key, seconds) results, the
    diagnostic lines printed for dropped cases, and the path of the image the
    run wrote. -/
structure RunOut where
  results : List (String × ℚ)
  logs : List String
  image : List String
deriving DecidableEq

/-- Results root of plot_datetime_bench.py. -/
def datetime_root : List String := ["target", "criterion", "datetime_validation"]

/-- Output image path of plot_datetime_bench.py. -/
def datetime_image : List String := ["docs", "bench_results", "datetime_validation.png"]

/-- Sub-bench discovery of plot_datetime_bench.py: names of the immediate
    subdirectories other than report, sorted (list.sort on strings). -/
def datetime_names (fs : FS) : List String :=
  List.insertionSort (fun a b => strLE a b = true)
    (((fs.iterdir datetime_root).filter fun e =>
        e.isDir && decide (e.name ≠ "report")).map Entry.name)

/-- The per-case loop of plot_datetime_bench.py: drop and log a case with no
    file or no estimate, die on a bad value, else store name paired with the
    normalized estimate, in loop order. -/
def datetime_loop (fs : FS) : List String → Except RunErr (List (String × ℚ) × List String)
  | [] => Except.ok ([], [])
  | n :: rest =>
    match caseOutcome fs (datetime_root ++ [n]) with
    | CaseOutcome.missingFile =>
      (datetime_loop fs rest).map fun rl => (rl.1, ("Missing estimates for " ++ n) :: rl.2)
    | CaseOutcome.noEstimate =>
      (datetime_loop fs rest).map fun rl => (rl.1, ("Could not find median for " ++ n) :: rl.2)
    | CaseOutcome.badValue => Except.error RunErr.exception
    | CaseOutcome.value t =>
      (datetime_loop fs rest).map fun rl => ((n, normalizeUnits t) :: rl.1, rl.2)

/-- plot_datetime_bench.py end to end: abort when the results root is absent,
    else process every discovered sub-bench and write the bar chart. -/
def datetime_run (fs : FS) : Except RunErr RunOut :=
  if datetime_root ∈ fs.dirs then
    (datetime_loop fs (datetime_names fs)).map fun rl =>
      RunOut.mk rl.1 rl.2 datetime_image
  else
    Except.error (RunErr.exit
      "Criterion output directory not found: target/criterion/datetime_validation")

/-- Results root of plot_sqllog_bench.py. -/
def sqllog_root : List String := ["target", "criterion", "sqllog_from_file_1m"]

/-- Output image path of plot_sqllog_bench.py. -/
def sqllog_image : List String := ["docs", "bench_results", "sqllog_from_file_1m.png"]

/-- plot_sqllog_bench.py end to end: a single benchmark directly under the
    root; a missing result file or a missing estimate raises SystemExit. -/
def sqllog_run (fs : FS) : Except RunErr RunOut :=
  if sqllog_root ∈ fs.dirs then
    match caseOutcome fs sqllog_root with
    | CaseOutcome.missingFile =>
      Except.error (RunErr.exit "No estimates found in target/criterion/sqllog_from_file_1m")
    | CaseOutcome.noEstimate =>
      Except.error (RunErr.exit "Could not find median in estimates")
    | CaseOutcome.badValue => Except.error RunErr.exception
    | CaseOutcome.value t =>
      Except.ok (RunOut.mk [("sqllog_from_file_1m", normalizeUnits t)] [] sqllog_image)
  else
    Except.error (RunErr.exit
      "Criterion output directory not found: target/criterion/sqllog_from_file_1m")

/-- Results root of plot_duckdb_write_bench.py. -/
def duckdb_root : List String := ["target", "criterion", "duckdb_write_modes"]

/-- Output image path of plot_duckdb_write_bench.py. -/
def duckdb_image : List String := ["docs", "bench_results", "duckdb_write_modes.png"]

/-- The fixed mode labels of plot_duckdb_write_bench.py. -/
def duckdb_modes : List String := ["appender_direct", "in_memory_ctas", "csv_copy"]

/-- The fixed swept sizes of plot_duckdb_write_bench.py. -/
def duckdb_sizes : List Int := [10000, 50000, 200000]

/-- The inner size loop of plot_duckdb_write_bench.py for one mode: drop and
    log missing files and missing estimates, die on a bad value, else store
    (size, raw float) in loop order.  Normalization happens in a later pass. -/
def duckdb_loop (fs : FS) (m : String) : List Int → Except RunErr (List (Int × ℚ) × List String)
  | [] => Except.ok ([], [])
  | s :: rest =>
    match caseOutcome fs (duckdb_root ++ [m, toString s]) with
    | CaseOutcome.missingFile =>
      (duckdb_loop fs m rest).map fun rl =>
        (rl.1, ("Missing file for " ++ m ++ " " ++ toString s) :: rl.2)
    | CaseOutcome.noEstimate =>
      (duckdb_loop fs m rest).map fun rl =>
        (rl.1, ("Could not find median for " ++ m ++ " " ++ toString s) :: rl.2)
    | CaseOutcome.badValue => Except.error RunErr.exception
    | CaseOutcome.value t =>
      (duckdb_loop fs m rest).map fun rl => ((s, t) :: rl.1, rl.2)

/-- The outer mode loop: results[m] for each mode in order, logs concatenated
    in print order. -/
def duckdb_all (fs : FS) :
    List String → Except RunErr (List (String × List (Int × ℚ)) × List String)
  | [] => Except.ok ([], [])
  | m :: rest =>
    match duckdb_loop fs m duckdb_sizes with
    | Except.error e => Except.error e
    | Except.ok rl =>
      (duckdb_all fs rest).map fun acc => ((m, rl.1) :: acc.1, rl.2 ++ acc.2)

/-- The normalization pass of plot_duckdb_write_bench.py: replace every stored
    value by its unit-normalized form. -/
def normalizeSeries (r : List (Int × ℚ)) : List (Int × ℚ) :=
  r.map fun p => (p.1, normalizeUnits p.2)

/-- Dict lookup on an integer-keyed series. -/
def lookupInt : List (Int × ℚ) → Int → Option ℚ
  | [], _ => none
  | (k, v) :: rest, s => if k = s then some v else lookupInt rest s

/-- The plot prologue per mode: xs = sorted(results[m].keys()),
    ys = [results[m][x] for x in xs].  Indexing cannot miss since xs is a
    permutation of the keys, so the default never fires. -/
def duckdb_plot (r : List (Int × ℚ)) : List Int × List ℚ :=
  let nr := normalizeSeries r
  let xs := List.insertionSort (fun a b : Int => a ≤ b) (nr.map fun p => p.1)
  (xs, xs.map fun x => (lookupInt nr x).getD 0)

/-- One plotted line of the duckdb chart: a mode with its x and y lists. -/
structure ModeSeries where
  mode : String
  xs : List Int
  ys : List ℚ
deriving DecidableEq

/-- Output of a completed duckdb run: plotted series per mode, diagnostic
    lines, image path. -/
structure DuckOut where
  series : List ModeSeries
  logs : List String
  image : List String
deriving DecidableEq

/-- plot_duckdb_write_bench.py end to end: abort when the results root is
    absent, else collect raw medians per mode and size, normalize, sort keys
    and draw one line per mode. -/
def duckdb_run (fs : FS) : Except RunErr DuckOut :=
  if duckdb_root ∈ fs.dirs then
    (duckdb_all fs duckdb_modes).map fun rl =>
      DuckOut.mk
        (rl.1.map fun mr => ModeSeries.mk mr.1 (duckdb_plot mr.2).1 (duckdb_plot mr.2).2)
        rl.2 duckdb_image
  else
    Except.error (RunErr.exit
      "Criterion output directory not found: target/criterion/duckdb_write_modes")

/-- Results root of plot_sqllog_varied.py. -/
def varied_root : List String := ["target", "criterion"]

/-- The case loop of extract_series in plot_sqllog_varied.py, over the
    sorted directory entries: skip non-directories, skip (silently) cases with
    no file or no estimate, die on a bad value; otherwise append the normalized
    value, keyed by int(name) or, when that raises, by the current length of
    the sizes list. -/
def extract_loop (fs : FS) (base : List String) :
    List Entry → List Int → List ℚ → Except RunErr (List Int × List ℚ)
  | [], sizes, vals => Except.ok (sizes, vals)
  | e :: rest, sizes, vals =>
    if e.isDir then
      match caseOutcome fs (base ++ [e.name]) with
      | CaseOutcome.missingFile => extract_loop fs base rest sizes vals
      | CaseOutcome.noEstimate => extract_loop fs base rest sizes vals
      | CaseOutcome.badValue => Except.error RunErr.exception
      | CaseOutcome.value t =>
        extract_loop fs base rest
          (sizes ++ [match pyInt e.name with
                     | some k => k
                     | none => (sizes.length : Int)])
          (vals ++ [normalizeUnits t])
    else extract_loop fs base rest sizes vals

/-- extract_series(group_name) of plot_sqllog_varied.py: none when the group
    directory is absent (the script prints No group and returns None), else
    the (sizes, vals) pair built over the entries sorted by name. -/
def extract_series (fs : FS) (group : String) : Except RunErr (Option (List Int × List ℚ)) :=
  if varied_root ++ [group] ∈ fs.dirs then
    (extract_loop fs (varied_root ++ [group])
      (List.insertionSort (fun a b => strLE a.name b.name = true)
        (fs.iterdir (varied_root ++ [group]))) [] []).map some
  else Except.ok none

/-- The results the datetime loop keeps: for each discovered name in order,
    the pair (name, normalized estimate) when the case resolves, nothing
    otherwise. -/
def datetime_resolved (fs : FS) (names : List String) : List (String × ℚ) :=
  names.filterMap fun n =>
    match caseOutcome fs (datetime_root ++ [n]) with
    | CaseOutcome.value t => some (n, normalizeUnits t)
    | _ => none

/-- The diagnostic lines the datetime loop prints for dropped cases, in loop
    order. -/
def datetime_dropped (fs : FS) (names : List String) : List String :=
  names.filterMap fun n =>
    match caseOutcome fs (datetime_root ++ [n]) with
    | CaseOutcome.missingFile => some ("Missing estimates for " ++ n)
    | CaseOutcome.noEstimate => some ("Could not find median for " ++ n)
    | _ => none

/-- A duckdb (mode, size) case resolves to a raw estimate. -/
def duckdb_resolvedP (fs : FS) (m : String) (s : Int) : Bool :=
  match caseOutcome fs (duckdb_root ++ [m, toString s]) with
  | CaseOutcome.value _ => true
  | _ => false

/-- The raw (size, estimate) pairs the duckdb size loop keeps for one mode. -/
def duckdb_resolvedRaw (fs : FS) (m : String) (ss : List Int) : List (Int × ℚ) :=
  ss.filterMap fun s =>
    match caseOutcome fs (duckdb_root ++ [m, toString s]) with
    | CaseOutcome.value t => some (s, t)
    | _ => none

/-- The diagnostic lines the duckdb size loop prints for one mode. -/
def duckdb_droppedLogs (fs : FS) (m : String) (ss : List Int) : List String :=
  ss.filterMap fun s =>
    match caseOutcome fs (duckdb_root ++ [m, toString s]) with
    | CaseOutcome.missingFile => some ("Missing file for " ++ m ++ " " ++ toString s)
    | CaseOutcome.noEstimate => some ("Could not find median for " ++ m ++ " " ++ toString s)
    | _ => none

/-- An outcome carries no negative raw estimate. -/
def outcomeNonneg : CaseOutcome → Bool
  | CaseOutcome.value t => decide (0 ≤ t)
  | _ => true

/-- A Criterion estimates document whose median carries the given point
    estimate; the shape the repository's result files use. -/
def estFile (q : ℚ) : Json :=
  Json.obj [("median", Json.obj [("point_estimate", Json.num q)])]

/-- A filesystem where the sqllog root directory exists but holds no result
    file under either layout. -/
def fsC3 : FS := FS.mk [sqllog_root] []

/-- A datetime results tree with one resolvable case (case_a, estimate 2) and
    one case directory with no result file (case_b). -/
def fsA : FS :=
  FS.mk [datetime_root, datetime_root ++ ["case_b"], datetime_root ++ ["case_a"]]
    [(datetime_root ++ ["case_a", "base", "estimates.json"], estFile 2)]

/-- A filesystem with no results roots at all. -/
def fsEmpty : FS := FS.mk [] []

/-- A filesystem where both multi-case results roots exist but hold no cases. -/
def fsRoots : FS := FS.mk [datetime_root, duckdb_root] []

/-- A case directory holding only the secondary layout new/benchmark.json. -/
def fsSecondary : FS :=
  FS.mk [] [(["target", "criterion", "grp", "new", "benchmark.json"], estFile 2)]

/-- A datetime results tree whose single case carries a negative point
    estimate. -/
def fsNeg : FS :=
  FS.mk [datetime_root, datetime_root ++ ["case_a"]]
    [(datetime_root ++ ["case_a", "base", "estimates.json"], estFile (-1))]

/-- A swept group holding the three spec sizes, every case resolvable, with
    pairwise distinct estimates to make the pairing visible. -/
def fsSweep : FS :=
  FS.mk [varied_root ++ ["sqllog_write_file"],
         varied_root ++ ["sqllog_write_file", "50000"],
         varied_root ++ ["sqllog_write_file", "10000"],
         varied_root ++ ["sqllog_write_file", "200000"]]
    [(varied_root ++ ["sqllog_write_file", "10000", "base", "estimates.json"], estFile 1),
     (varied_root ++ ["sqllog_write_file", "50000", "base", "estimates.json"], estFile 2),
     (varied_root ++ ["sqllog_write_file", "200000", "base", "estimates.json"], estFile 3)]

/-- A duckdb tree where exactly one (mode, size) case resolves. -/
def fsDuck : FS :=
  FS.mk [duckdb_root]
    [(duckdb_root ++ ["appender_direct", "10000", "base", "estimates.json"], estFile 2)]

/-- The output of duckdb_run on fsDuck. -/
def outDuck : DuckOut :=
  DuckOut.mk
    [ModeSeries.mk "appender_direct" [10000] [2],
     ModeSeries.mk "in_memory_ctas" [] [],
     ModeSeries.mk "csv_copy" [] []]
    ["Missing file for appender_direct 50000", "Missing file for appender_direct 200000",
     "Missing file for in_memory_ctas 10000", "Missing file for in_memory_ctas 50000",
     "Missing file for in_memory_ctas 200000", "Missing file for csv_copy 10000",
     "Missing file for csv_copy 50000", "Missing file for csv_copy 200000"]
    duckdb_image

/-- A swept group where the lexicographically first case directory (alpha) has
    no result file and the second (beta, non-numeric name) resolves. -/
def fsFallback : FS :=
  FS.mk [varied_root ++ ["sqllog_parse_file"],
         varied_root ++ ["sqllog_parse_file", "alpha"],
         varied_root ++ ["sqllog_parse_file", "beta"]]
    [(varied_root ++ ["sqllog_parse_file", "beta", "base", "estimates.json"], estFile 2)]

/-- A filesystem exercising all three multi-case reports at once: the datetime
    root with one resolvable case (case_a) and one case with no result file
    (case_b), the duckdb root with no cases at all, and one varied group with a
    caseless directory (alpha) and a resolvable non-numeric case (beta). -/
def fsM : FS :=
  FS.mk [datetime_root, datetime_root ++ ["case_b"], datetime_root ++ ["case_a"],
         duckdb_root,
         varied_root ++ ["sqllog_parse_file"],
         varied_root ++ ["sqllog_parse_file", "alpha"],
         varied_root ++ ["sqllog_parse_file", "beta"]]
    [(datetime_root ++ ["case_a", "base", "estimates.json"], estFile 2),
     (varied_root ++ ["sqllog_parse_file", "beta", "base", "estimates.json"], estFile 2)]

/-- The break-at-first-match loop equals the first-such-element description. -/
theorem scanValues_eq_find (fields : List (String × Json)) :
    scanValues fields =
      match fields.find? fun kv => isObjWithPE kv.2 with
      | some (_, Json.obj fs) => getPy fs "point_estimate"
      | _ => none := by
  induction fields with
  | nil => rfl
  | cons kv rest ih =>
    obtain ⟨k, v⟩ := kv
    match v with
    | Json.null => simpa [scanValues, List.find?_cons, isObjWithPE] using ih
    | Json.bool b => simpa [scanValues, List.find?_cons, isObjWithPE] using ih
    | Json.num q => simpa [scanValues, List.find?_cons, isObjWithPE] using ih
    | Json.str s => simpa [scanValues, List.find?_cons, isObjWithPE] using ih
    | Json.arr es => simpa [scanValues, List.find?_cons, isObjWithPE] using ih
    | Json.obj fs =>
      by_cases h : (getKey fs "point_estimate").isSome
      · simp [scanValues, List.find?_cons, isObjWithPE, h]
      · simpa [scanValues, List.find?_cons, isObjWithPE, h] using ih

/-- C1: for every parsed result document that is a key-value structure, the
    extractor returns, first match winning: the point_estimate field of a
    top-level median key whose value is a key-value structure; else the
    point_estimate field of a top-level mean key with the same shape; else the
    point_estimate field of the first top-level value in insertion order that
    is a key-value structure containing that field; else none (unresolved). -/
theorem C1_extractor_preference (fields : List (String × Json)) :
    extract_estimate (Json.obj fields) = claimExtract fields := by
  simp only [extract_estimate, claimExtract]
  rw [scanValues_eq_find]

/-- Below the microsecond threshold, normalization is the identity. -/
theorem normalizeUnits_id_low (v : ℚ) (h : v ≤ 1000) : normalizeUnits v = v := by
  have h1 : ¬ v > 1000000 := by linarith
  have h2 : ¬ v > 1000 := not_lt.mpr h
  simp [normalizeUnits, h1, h2]

/-- Unit normalization never turns a non-negative value negative. -/
theorem normalizeUnits_nonneg (v : ℚ) (h : 0 ≤ v) : 0 ≤ normalizeUnits v := by
  unfold normalizeUnits
  split
  · positivity
  · split
    · positivity
    · exact h

/-- C2: the unit normalizer divides by 1e9 above 1e6, by 1e6 between 1e3 and
    1e6, and is the identity at or below 1e3; in particular it maps
    2500000000 to 2.5, 4200 to 0.0042 and 0.0037 to itself. -/
theorem C2_normalizer_thresholds (v : ℚ) :
    (v > 1000000 → normalizeUnits v = v / 1000000000) ∧
    (1000 < v ∧ v ≤ 1000000 → normalizeUnits v = v / 1000000) ∧
    (v ≤ 1000 → normalizeUnits v = v) ∧
    normalizeUnits 2500000000 = 2.5 ∧
    normalizeUnits 4200 = 0.0042 ∧
    normalizeUnits 0.0037 = 0.0037 := by
  refine ⟨?_, ?_, ?_, ?_, ?_, ?_⟩
  · intro h; simp [normalizeUnits, h]
  · rintro ⟨h1, h2⟩
    have hn : ¬ v > 1000000 := not_lt.mpr h2
    simp [normalizeUnits, hn, h1]
  · exact normalizeUnits_id_low v
  · norm_num [normalizeUnits]
  · norm_num [normalizeUnits]
  · norm_num [normalizeUnits]

theorem C2_normalizer_thresholds_witness :
    (2500000000 : ℚ) > 1000000 ∧ normalizeUnits 2500000000 = 2500000000 / 1000000000 :=
  ⟨by norm_num, (C2_normalizer_thresholds 2500000000).1 (by norm_num)⟩

/-- C9: the normalizer is the identity on values at or below 1000, hence
    idempotent under its own output whenever that output is at or below
    1000. -/
theorem C9_normalizer_idempotent (v : ℚ) :
    (v ≤ 1000 → normalizeUnits v = v) ∧
    (normalizeUnits v ≤ 1000 → normalizeUnits (normalizeUnits v) = normalizeUnits v) := by
  constructor
  · exact normalizeUnits_id_low v
  · exact normalizeUnits_id_low (normalizeUnits v)

theorem C9_normalizer_idempotent_witness :
    (0.0037 : ℚ) ≤ 1000 ∧ normalizeUnits 0.0037 = 0.0037 :=
  ⟨by norm_num, (C9_normalizer_idempotent 0.0037).1 (by norm_num)⟩

/-- C10: when the top level binds median to a key-value structure lacking a
    point_estimate field, the extractor yields none (the case is unresolved),
    whatever the mean key or the other top-level values contain. -/
theorem C10_median_shape_shortcircuits
    (fields m : List (String × Json))
    (hmed : getKey fields "median" = some (Json.obj m))
    (hpe : getKey m "point_estimate" = none) :
    extract_estimate (Json.obj fields) = none := by
  simp only [extract_estimate]
  rw [hmed]
  simp only [getPy]
  rw [hpe]

theorem C10_median_shape_shortcircuits_witness :
    getKey [("median", Json.obj []),
            ("mean", Json.obj [("point_estimate", Json.num 7)]),
            ("other", Json.obj [("point_estimate", Json.num 9)])] "median"
        = some (Json.obj []) ∧
    extract_estimate (Json.obj
      [("median", Json.obj []),
       ("mean", Json.obj [("point_estimate", Json.num 7)]),
       ("other", Json.obj [("point_estimate", Json.num 9)])]) = none :=
  ⟨rfl, C10_median_shape_shortcircuits _ [] rfl rfl⟩

/-- When no case dies in float(), the datetime loop completes with exactly the
    resolved pairs and the dropped-case diagnostics. -/
theorem datetime_loop_ok (fs : FS) (names : List String)
    (h : ∀ n ∈ names, caseOutcome fs (datetime_root ++ [n]) ≠ CaseOutcome.badValue) :
    datetime_loop fs names =
      Except.ok (datetime_resolved fs names, datetime_dropped fs names) := by
  induction names with
  | nil => rfl
  | cons n rest ih =>
    have hn := h n (List.mem_cons_self n rest)
    have hrest := fun x hx => h x (List.mem_cons_of_mem n hx)
    cases hc : caseOutcome fs (datetime_root ++ [n]) with
    | missingFile =>
      simp [datetime_loop, hc, ih hrest, datetime_resolved, datetime_dropped,
        List.filterMap_cons, Except.map]
    | noEstimate =>
      simp [datetime_loop, hc, ih hrest, datetime_resolved, datetime_dropped,
        List.filterMap_cons, Except.map]
    | badValue => exact absurd hc hn
    | value t =>
      simp [datetime_loop, hc, ih hrest, datetime_resolved, datetime_dropped,
        List.filterMap_cons, Except.map]

/-- C3 counterexample: with the sqllog root present but no result file under
    either layout, plot_sqllog_bench.py aborts the run with SystemExit, a
    user-visible abort that is not FatalRootMissing. -/
theorem C3_counterexample :
    sqllog_root ∈ fsC3.dirs ∧
    caseOutcome fsC3 sqllog_root = CaseOutcome.missingFile ∧
    sqllog_run fsC3 =
      Except.error (RunErr.exit "No estimates found in target/criterion/sqllog_from_file_1m") :=
  ⟨by decide, rfl, rfl⟩

/-- When no case dies in float(), the duckdb size loop for one mode completes
    with exactly the resolved raw pairs and the dropped-case diagnostics. -/
theorem duckdb_loop_ok (fs : FS) (m : String) (ss : List Int)
    (h : ∀ s ∈ ss, caseOutcome fs (duckdb_root ++ [m, toString s]) ≠ CaseOutcome.badValue) :
    duckdb_loop fs m ss =
      Except.ok (duckdb_resolvedRaw fs m ss, duckdb_droppedLogs fs m ss) := by
  induction ss with
  | nil => rfl
  | cons s rest ih =>
    have hs := h s (List.mem_cons_self s rest)
    have hrest := fun x hx => h x (List.mem_cons_of_mem s hx)
    cases hc : caseOutcome fs (duckdb_root ++ [m, toString s]) with
    | missingFile =>
      simp [duckdb_loop, hc, ih hrest, duckdb_resolvedRaw, duckdb_droppedLogs,
        List.filterMap_cons, Except.map]
    | noEstimate =>
      simp [duckdb_loop, hc, ih hrest, duckdb_resolvedRaw, duckdb_droppedLogs,
        List.filterMap_cons, Except.map]
    | badValue => exact absurd hc hs
    | value t =>
      simp [duckdb_loop, hc, ih hrest, duckdb_resolvedRaw, duckdb_droppedLogs,
        List.filterMap_cons, Except.map]

/-- When no case dies in float(), the mode loop completes with every mode's
    resolved raw series, logs concatenated in print order. -/
theorem duckdb_all_ok (fs : FS) (ms : List String)
    (h : ∀ m ∈ ms, ∀ s ∈ duckdb_sizes,
      caseOutcome fs (duckdb_root ++ [m, toString s]) ≠ CaseOutcome.badValue) :
    duckdb_all fs ms = Except.ok
      (ms.map fun m => (m, duckdb_resolvedRaw fs m duckdb_sizes),
       (ms.map fun m => duckdb_droppedLogs fs m duckdb_sizes).flatten) := by
  induction ms with
  | nil => rfl
  | cons m rest ih =>
    have hm := h m (List.mem_cons_self m rest)
    have hrest := fun x hx => h x (List.mem_cons_of_mem m hx)
    simp [duckdb_all, duckdb_loop_ok fs m duckdb_sizes hm, ih hrest, Except.map]

/-- C6: when the results root of a required benchmark group is absent the run
    terminates at once with SystemExit (nonzero exit), producing an error and
    never a RunOut, hence no image path is written; when the root is present,
    individual missing or unresolvable cases never abort: the datetime and
    duckdb runs still complete with an output. -/
theorem C6_root_missing_aborts (fs gs : FS)
    (hd : datetime_root ∉ fs.dirs) (hw : duckdb_root ∉ fs.dirs)
    (hgd : datetime_root ∈ gs.dirs) (hgw : duckdb_root ∈ gs.dirs)
    (hok1 : ∀ n ∈ datetime_names gs,
      caseOutcome gs (datetime_root ++ [n]) ≠ CaseOutcome.badValue)
    (hok2 : ∀ m ∈ duckdb_modes, ∀ s ∈ duckdb_sizes,
      caseOutcome gs (duckdb_root ++ [m, toString s]) ≠ CaseOutcome.badValue) :
    datetime_run fs = Except.error
      (RunErr.exit "Criterion output directory not found: target/criterion/datetime_validation") ∧
    duckdb_run fs = Except.error
      (RunErr.exit "Criterion output directory not found: target/criterion/duckdb_write_modes") ∧
    (∃ out, datetime_run gs = Except.ok out) ∧
    (∃ out, duckdb_run gs = Except.ok out) := by
  refine ⟨?_, ?_, ?_, ?_⟩
  · simp [datetime_run, hd]
  · simp [duckdb_run, hw]
  · have h1 : datetime_run gs = Except.ok
        (RunOut.mk (datetime_resolved gs (datetime_names gs))
          (datetime_dropped gs (datetime_names gs)) datetime_image) := by
      unfold datetime_run
      rw [if_pos hgd, datetime_loop_ok gs (datetime_names gs) hok1]
      rfl
    exact ⟨_, h1⟩
  · have h2 : duckdb_run gs = Except.ok (DuckOut.mk
        ((duckdb_modes.map fun m => (m, duckdb_resolvedRaw gs m duckdb_sizes)).map
          fun mr => ModeSeries.mk mr.1 (duckdb_plot mr.2).1 (duckdb_plot mr.2).2)
        ((duckdb_modes.map fun m => duckdb_droppedLogs gs m duckdb_sizes).flatten)
        duckdb_image) := by
      unfold duckdb_run
      rw [if_pos hgw, duckdb_all_ok gs duckdb_modes hok2]
      rfl
    exact ⟨_, h2⟩

theorem C6_root_missing_aborts_witness :
    datetime_run fsEmpty = Except.error
      (RunErr.exit "Criterion output directory not found: target/criterion/datetime_validation") ∧
    duckdb_run fsEmpty = Except.error
      (RunErr.exit "Criterion output directory not found: target/criterion/duckdb_write_modes") ∧
    (∃ out, datetime_run fsRoots = Except.ok out) ∧
    (∃ out, duckdb_run fsRoots = Except.ok out) :=
  C6_root_missing_aborts fsEmpty fsRoots (by decide) (by decide) (by decide) (by decide)
    (by decide) (by decide)

/-- C5: the locator tries case/base/estimates.json first; when that file is
    absent it tries case/new/benchmark.json, and extraction proceeds from the
    secondary content; when neither exists the case is unresolved. -/
theorem C5_locator_fallback (fs : FS) (caseDir : List String) :
    (∀ d, fs.file (caseDir ++ ["base", "estimates.json"]) = some d →
      locate fs caseDir = some (caseDir ++ ["base", "estimates.json"])) ∧
    (fs.file (caseDir ++ ["base", "estimates.json"]) = none →
      ∀ d, fs.file (caseDir ++ ["new", "benchmark.json"]) = some d →
        locate fs caseDir = some (caseDir ++ ["new", "benchmark.json"]) ∧
        ∀ j t, extract_estimate d = some j → pyFloat j = some t →
          caseOutcome fs caseDir = CaseOutcome.value t) ∧
    (fs.file (caseDir ++ ["base", "estimates.json"]) = none →
      fs.file (caseDir ++ ["new", "benchmark.json"]) = none →
      locate fs caseDir = none ∧ caseOutcome fs caseDir = CaseOutcome.missingFile) := by
  refine ⟨?_, ?_, ?_⟩
  · intro d hd
    simp [locate, hd]
  · intro hp d hd
    have hl : locate fs caseDir = some (caseDir ++ ["new", "benchmark.json"]) := by
      simp [locate, hp, hd]
    refine ⟨hl, ?_⟩
    intro j t hj ht
    simp [caseOutcome, hl, hd, hj, ht]
  · intro hp hn
    have hl : locate fs caseDir = none := by simp [locate, hp, hn]
    exact ⟨hl, by simp [caseOutcome, hl]⟩

theorem C5_locator_fallback_witness :
    locate fsSecondary ["target", "criterion", "grp"] =
      some (["target", "criterion", "grp"] ++ ["new", "benchmark.json"]) ∧
    caseOutcome fsSecondary ["target", "criterion", "grp"] = CaseOutcome.value 2 := by
  have h := (C5_locator_fallback fsSecondary ["target", "criterion", "grp"]).2.1
    rfl (estFile 2) rfl
  exact ⟨h.1, h.2 (Json.num 2) 2 rfl rfl⟩

/-- C7 counterexample: a result file carrying a negative point estimate flows
    into the series unchanged, so a stored NormalizedEstimate can be
    negative. -/
theorem C7_counterexample :
    datetime_run fsNeg = Except.ok
      (RunOut.mk [("case_a", -1)] [] datetime_image) ∧
    ((-1 : ℚ) < 0) :=
  ⟨rfl, by norm_num⟩

/-- The keys a successful duckdb size loop stores are exactly the sizes whose
    case resolved, in loop order. -/
theorem duckdb_loop_keys (fs : FS) (m : String) :
    ∀ (ss : List Int) (r : List (Int × ℚ)) (l : List String),
      duckdb_loop fs m ss = Except.ok (r, l) →
      r.map (fun p => p.1) = ss.filter fun s => duckdb_resolvedP fs m s := by
  intro ss
  induction ss with
  | nil =>
    intro r l h
    simp only [duckdb_loop, Except.ok.injEq, Prod.mk.injEq] at h
    rw [← h.1]
    rfl
  | cons s rest ih =>
    intro r l h
    simp only [duckdb_loop] at h
    cases hc : caseOutcome fs (duckdb_root ++ [m, toString s]) with
    | missingFile =>
      rw [hc] at h
      cases hrec : duckdb_loop fs m rest with
      | error e => rw [hrec] at h; simp [Except.map] at h
      | ok rl =>
        obtain ⟨r0, l0⟩ := rl
        rw [hrec] at h
        simp only [Except.map, Except.ok.injEq, Prod.mk.injEq] at h
        rw [← h.1, List.filter_cons]
        simp only [duckdb_resolvedP, hc]
        exact ih r0 l0 hrec
    | noEstimate =>
      rw [hc] at h
      cases hrec : duckdb_loop fs m rest with
      | error e => rw [hrec] at h; simp [Except.map] at h
      | ok rl =>
        obtain ⟨r0, l0⟩ := rl
        rw [hrec] at h
        simp only [Except.map, Except.ok.injEq, Prod.mk.injEq] at h
        rw [← h.1, List.filter_cons]
        simp only [duckdb_resolvedP, hc]
        exact ih r0 l0 hrec
    | badValue => rw [hc] at h; simp at h
    | value t =>
      rw [hc] at h
      cases hrec : duckdb_loop fs m rest with
      | error e => rw [hrec] at h; simp [Except.map] at h
      | ok rl =>
        obtain ⟨r0, l0⟩ := rl
        rw [hrec] at h
        simp only [Except.map, Except.ok.injEq, Prod.mk.injEq] at h
        have hp : duckdb_resolvedP fs m s = true := by simp [duckdb_resolvedP, hc]
        rw [← h.1, List.filter_cons, hp]
        simp only [if_true, List.map_cons]
        rw [ih r0 l0 hrec]
    
/-- Every mode series a successful duckdb mode loop returns came from a
    successful size loop for that mode. -/
theorem duckdb_all_series (fs : FS) :
    ∀ (ms : List String) (rs : List (String × List (Int × ℚ))) (l : List String),
      duckdb_all fs ms = Except.ok (rs, l) →
      ∀ p ∈ rs, ∃ logs, duckdb_loop fs p.1 duckdb_sizes = Except.ok (p.2, logs) := by
  intro ms
  induction ms with
  | nil =>
    intro rs l h p hp
    simp only [duckdb_all, Except.ok.injEq, Prod.mk.injEq] at h
    rw [← h.1] at hp
    simp at hp
  | cons m rest ih =>
    intro rs l h p hp
    simp only [duckdb_all] at h
    cases hloop : duckdb_loop fs m duckdb_sizes with
    | error e => rw [hloop] at h; simp at h
    | ok rl =>
      obtain ⟨rl1, rl2⟩ := rl
      rw [hloop] at h
      cases hall : duckdb_all fs rest with
      | error e => rw [hall] at h; simp [Except.map] at h
      | ok acc =>
        obtain ⟨acc1, acc2⟩ := acc
        rw [hall] at h
        simp only [Except.map, Except.ok.injEq, Prod.mk.injEq] at h
        rw [← h.1] at hp
        rcases List.mem_cons.mp hp with heq | hmem
        · subst heq
          exact ⟨rl2, hloop⟩
        · exact ih acc1 acc2 hall p hmem

/-- The fixed size list of the duckdb script is ascending. -/
theorem duckdb_sizes_sorted : List.Sorted (fun a b : Int => a ≤ b) duckdb_sizes := by
  decide

/-- Unit normalization keeps the series keys. -/
theorem normalizeSeries_keys (r : List (Int × ℚ)) :
    (normalizeSeries r).map (fun p => p.1) = r.map fun p => p.1 := by
  simp [normalizeSeries]

/-- The x list the duckdb plot draws is the sorted key list of the raw
    series. -/
theorem duckdb_plot_xs (r : List (Int × ℚ)) :
    (duckdb_plot r).1 =
      List.insertionSort (fun a b : Int => a ≤ b) (r.map fun p => p.1) := by
  simp [duckdb_plot, normalizeSeries_keys]

/-- C4 counterexample: with all three spec sizes resolvable, extract_series of
    plot_sqllog_varied.py returns the sizes in lexicographic directory-name
    order 10000, 200000, 50000, which is not ascending by size. -/
theorem C4_counterexample :
    extract_series fsSweep "sqllog_write_file" =
      Except.ok (some ([10000, 200000, 50000], [1, 3, 2])) ∧
    ¬ List.Sorted (fun a b : Int => a ≤ b) [10000, 200000, 50000] :=
  ⟨rfl, by decide⟩

/-- C4 amended: the mode-by-size report (plot_duckdb_write_bench.py) draws
    every mode series with exactly its resolved sizes in ascending order,
    independent of on-disk enumeration order; the swept-group report
    (plot_sqllog_varied.py) instead orders a series by lexicographic directory
    name, which for sizes 10000, 50000, 200000 yields 10000, 200000, 50000. -/
theorem C4_amended (fs : FS) (out : DuckOut)
    (hk : duckdb_run fs = Except.ok out) :
    (∀ ms ∈ out.series,
      List.Sorted (fun a b : Int => a ≤ b) ms.xs ∧
      ms.xs = duckdb_sizes.filter fun s => duckdb_resolvedP fs ms.mode s) ∧
    extract_series fsSweep "sqllog_write_file" =
      Except.ok (some ([10000, 200000, 50000], [1, 3, 2])) := by
  refine ⟨?_, rfl⟩
  intro ms hms
  unfold duckdb_run at hk
  by_cases hr : duckdb_root ∈ fs.dirs
  case neg => rw [if_neg hr] at hk; simp at hk
  rw [if_pos hr] at hk
  cases hall : duckdb_all fs duckdb_modes with
  | error e => rw [hall] at hk; simp [Except.map] at hk
  | ok rl =>
    obtain ⟨rs, l⟩ := rl
    rw [hall] at hk
    simp only [Except.map, Except.ok.injEq] at hk
    rw [← hk] at hms
    simp only [List.mem_map] at hms
    obtain ⟨mr, hmr, hmse⟩ := hms
    obtain ⟨logs, hloop⟩ := duckdb_all_series fs duckdb_modes rs l hall mr hmr
    have hkeys := duckdb_loop_keys fs mr.1 duckdb_sizes mr.2 logs hloop
    have hx : (duckdb_plot mr.2).1 =
        duckdb_sizes.filter fun s => duckdb_resolvedP fs mr.1 s := by
      rw [duckdb_plot_xs, hkeys]
      exact List.Sorted.insertionSort_eq (List.Pairwise.filter _ duckdb_sizes_sorted)
    rw [← hmse]
    exact ⟨by rw [hx]; exact List.Pairwise.filter _ duckdb_sizes_sorted, hx⟩

theorem C4_amended_witness :
    List.Sorted (fun a b : Int => a ≤ b) (ModeSeries.mk "appender_direct" [10000] [2]).xs ∧
    (ModeSeries.mk "appender_direct" [10000] [2]).xs =
      duckdb_sizes.filter fun s => duckdb_resolvedP fsDuck "appender_direct" s := by
  have h := (C4_amended fsDuck outDuck rfl).1
    (ModeSeries.mk "appender_direct" [10000] [2]) (by decide)
  exact ⟨h.1, h.2⟩

/-- C8 counterexample: the non-numeric case beta sits at position 1 of the
    iteration order (after alpha), but because alpha resolved no estimate the
    fallback key stored for beta is 0, the number of points aggregated so far,
    not its position 1 in iteration order. -/
theorem C8_counterexample :
    extract_series fsFallback "sqllog_parse_file" = Except.ok (some ([0], [2])) ∧
    (List.insertionSort (fun a b => strLE a.name b.name = true)
        (fsFallback.iterdir (varied_root ++ ["sqllog_parse_file"]))).map Entry.name
      = ["alpha", "beta"] ∧
    ([0] : List Int) ≠ [1] :=
  ⟨rfl, rfl, by decide⟩

/-- C8 amended: a resolvable case whose directory name does not parse as an
    integer is not dropped: it is appended with the current length of the
    sizes list (the number of points aggregated so far) as its key, and the
    loop continues over the remaining entries; this equals its position in
    iteration order only when every earlier iterated case resolved. -/
theorem C8_amended (fs : FS) (base : List String) (e : Entry) (rest : List Entry)
    (sizes : List Int) (vals : List ℚ) (t : ℚ)
    (hdir : e.isDir = true)
    (hint : pyInt e.name = none)
    (hval : caseOutcome fs (base ++ [e.name]) = CaseOutcome.value t) :
    extract_loop fs base (e :: rest) sizes vals =
      extract_loop fs base rest (sizes ++ [(sizes.length : Int)])
        (vals ++ [normalizeUnits t]) := by
  simp [extract_loop, hdir, hval, hint]

theorem C8_amended_witness :
    extract_loop fsFallback (varied_root ++ ["sqllog_parse_file"])
        [Entry.mk "beta" true] [] [] =
      extract_loop fsFallback (varied_root ++ ["sqllog_parse_file"]) []
        ([] ++ [(([] : List Int).length : Int)]) ([] ++ [normalizeUnits 2]) :=
  C8_amended fsFallback (varied_root ++ ["sqllog_parse_file"])
    (Entry.mk "beta" true) [] [] [] 2 rfl rfl rfl

/-- When no case dies in float(), the extract_series case loop of
    plot_sqllog_varied.py completes: skipped cases never abort it. -/
theorem extract_loop_ok (fs : FS) (base : List String) :
    ∀ (es : List Entry) (sizes : List Int) (vals : List ℚ),
      (∀ e ∈ es, e.isDir = true →
        caseOutcome fs (base ++ [e.name]) ≠ CaseOutcome.badValue) →
      ∃ out, extract_loop fs base es sizes vals = Except.ok out := by
  intro es
  induction es with
  | nil => intro sizes vals h; exact ⟨(sizes, vals), rfl⟩
  | cons e rest ih =>
    intro sizes vals h
    have he := h e (List.mem_cons_self e rest)
    have hrest := fun x hx hd => h x (List.mem_cons_of_mem e hx) hd
    by_cases hd : e.isDir = true
    · cases hc : caseOutcome fs (base ++ [e.name]) with
      | missingFile =>
        rw [show extract_loop fs base (e :: rest) sizes vals
            = extract_loop fs base rest sizes vals from by simp [extract_loop, hd, hc]]
        exact ih sizes vals hrest
      | noEstimate =>
        rw [show extract_loop fs base (e :: rest) sizes vals
            = extract_loop fs base rest sizes vals from by simp [extract_loop, hd, hc]]
        exact ih sizes vals hrest
      | badValue => exact absurd hc (he hd)
      | value t =>
        cases hpi : pyInt e.name with
        | some k =>
          rw [show extract_loop fs base (e :: rest) sizes vals
              = extract_loop fs base rest (sizes ++ [k]) (vals ++ [normalizeUnits t]) from by
            simp [extract_loop, hd, hc, hpi]]
          exact ih _ _ hrest
        | none =>
          rw [show extract_loop fs base (e :: rest) sizes vals
              = extract_loop fs base rest (sizes ++ [(sizes.length : Int)])
                  (vals ++ [normalizeUnits t]) from by
            simp [extract_loop, hd, hc, hpi]]
          exact ih _ _ hrest
    · rw [show extract_loop fs base (e :: rest) sizes vals
          = extract_loop fs base rest sizes vals from by simp [extract_loop, hd]]
      exact ih sizes vals hrest

/-- Values appended by the extract_series case loop are normalized raw
    estimates, so they stay non-negative when every raw estimate is. -/
theorem extract_loop_nonneg (fs : FS) (base : List String) :
    ∀ (es : List Entry) (sizes : List Int) (vals : List ℚ) (out : List Int × List ℚ),
      (∀ e ∈ es, e.isDir = true →
        outcomeNonneg (caseOutcome fs (base ++ [e.name])) = true) →
      extract_loop fs base es sizes vals = Except.ok out →
      (∀ q ∈ vals, 0 ≤ q) →
      ∀ q ∈ out.2, 0 ≤ q := by
  intro es
  induction es with
  | nil =>
    intro sizes vals out h hloop hv
    simp only [extract_loop, Except.ok.injEq] at hloop
    rw [← hloop]
    exact hv
  | cons e rest ih =>
    intro sizes vals out h hloop hv
    have hrest := fun x hx hd => h x (List.mem_cons_of_mem e hx) hd
    by_cases hd : e.isDir = true
    · cases hc : caseOutcome fs (base ++ [e.name]) with
      | missingFile =>
        rw [show extract_loop fs base (e :: rest) sizes vals
            = extract_loop fs base rest sizes vals from by simp [extract_loop, hd, hc]] at hloop
        exact ih sizes vals out hrest hloop hv
      | noEstimate =>
        rw [show extract_loop fs base (e :: rest) sizes vals
            = extract_loop fs base rest sizes vals from by simp [extract_loop, hd, hc]] at hloop
        exact ih sizes vals out hrest hloop hv
      | badValue =>
        rw [show extract_loop fs base (e :: rest) sizes vals
            = Except.error RunErr.exception from by simp [extract_loop, hd, hc]] at hloop
        exact absurd hloop (by simp)
      | value t =>
        have hnt : 0 ≤ t := by
          have ht := h e (List.mem_cons_self e rest) hd
          rw [hc] at ht
          simpa [outcomeNonneg] using ht
        have hv2 : ∀ q ∈ vals ++ [normalizeUnits t], 0 ≤ q := by
          intro q hq
          rcases List.mem_append.mp hq with hq1 | hq2
          · exact hv q hq1
          · rw [List.mem_singleton.mp hq2]
            exact normalizeUnits_nonneg t hnt
        cases hpi : pyInt e.name with
        | some k =>
          rw [show extract_loop fs base (e :: rest) sizes vals
              = extract_loop fs base rest (sizes ++ [k]) (vals ++ [normalizeUnits t]) from by
            simp [extract_loop, hd, hc, hpi]] at hloop
          exact ih _ _ out hrest hloop hv2
        | none =>
          rw [show extract_loop fs base (e :: rest) sizes vals
              = extract_loop fs base rest (sizes ++ [(sizes.length : Int)])
                  (vals ++ [normalizeUnits t]) from by
            simp [extract_loop, hd, hc, hpi]] at hloop
          exact ih _ _ out hrest hloop hv2
    · rw [show extract_loop fs base (e :: rest) sizes vals
          = extract_loop fs base rest sizes vals from by simp [extract_loop, hd]] at hloop
      exact ih sizes vals out hrest hloop hv

/-- A successful series lookup returns a stored pair. -/
theorem lookupInt_mem :
    ∀ (l : List (Int × ℚ)) (x : Int) (v : ℚ), lookupInt l x = some v → (x, v) ∈ l := by
  intro l
  induction l with
  | nil => intro x v h; simp [lookupInt] at h
  | cons p rest ih =>
    intro x v h
    obtain ⟨k, w⟩ := p
    simp only [lookupInt] at h
    by_cases hk : k = x
    · rw [if_pos hk] at h
      simp only [Option.some.injEq] at h
      rw [← h, ← hk]
      exact List.mem_cons_self _ _
    · rw [if_neg hk] at h
      exact List.mem_cons_of_mem _ (ih x v h)

/-- Every pair the duckdb size loop keeps records a size of the sweep whose
    case resolved to exactly that raw estimate. -/
theorem duckdb_resolvedRaw_mem (fs : FS) (m : String) (ss : List Int) (p : Int × ℚ)
    (hp : p ∈ duckdb_resolvedRaw fs m ss) :
    p.1 ∈ ss ∧ caseOutcome fs (duckdb_root ++ [m, toString p.1]) = CaseOutcome.value p.2 := by
  simp only [duckdb_resolvedRaw, List.mem_filterMap] at hp
  obtain ⟨s, hs, he⟩ := hp
  cases hc : caseOutcome fs (duckdb_root ++ [m, toString s]) with
  | missingFile => rw [hc] at he; simp at he
  | noEstimate => rw [hc] at he; simp at he
  | badValue => rw [hc] at he; simp at he
  | value t =>
    rw [hc] at he
    simp only [Option.some.injEq] at he
    rw [← he]
    exact ⟨hs, hc⟩

/-- C3 amended: only FatalRootMissing aborts the multi-case reports — in
    plot_datetime_bench.py and plot_duckdb_write_bench.py a case with a missing
    result file or no extractable estimate is dropped with a printed diagnostic
    and the run completes over the remaining cases, in plot_sqllog_varied.py
    such a case is dropped silently (no diagnostic) and the loop continues —
    while in the single-case report plot_sqllog_bench.py a missing result file
    or a missing point estimate also aborts the run with SystemExit. -/
theorem C3_amended (fs gs : FS) :
    (datetime_root ∈ fs.dirs →
      (∀ n ∈ datetime_names fs,
        caseOutcome fs (datetime_root ++ [n]) ≠ CaseOutcome.badValue) →
      datetime_run fs = Except.ok
        (RunOut.mk (datetime_resolved fs (datetime_names fs))
          (datetime_dropped fs (datetime_names fs)) datetime_image)) ∧
    (duckdb_root ∈ fs.dirs →
      (∀ m ∈ duckdb_modes, ∀ s ∈ duckdb_sizes,
        caseOutcome fs (duckdb_root ++ [m, toString s]) ≠ CaseOutcome.badValue) →
      duckdb_run fs = Except.ok (DuckOut.mk
        ((duckdb_modes.map fun m => (m, duckdb_resolvedRaw fs m duckdb_sizes)).map
          fun mr => ModeSeries.mk mr.1 (duckdb_plot mr.2).1 (duckdb_plot mr.2).2)
        ((duckdb_modes.map fun m => duckdb_droppedLogs fs m duckdb_sizes).flatten)
        duckdb_image)) ∧
    (∀ (base : List String) (e : Entry) (rest : List Entry)
        (sizes : List Int) (vals : List ℚ), e.isDir = true →
      (caseOutcome fs (base ++ [e.name]) = CaseOutcome.missingFile ∨
       caseOutcome fs (base ++ [e.name]) = CaseOutcome.noEstimate) →
      extract_loop fs base (e :: rest) sizes vals = extract_loop fs base rest sizes vals) ∧
    (∀ g, varied_root ++ [g] ∈ fs.dirs →
      (∀ e ∈ List.insertionSort (fun a b => strLE a.name b.name = true)
          (fs.iterdir (varied_root ++ [g])),
        e.isDir = true →
          caseOutcome fs ((varied_root ++ [g]) ++ [e.name]) ≠ CaseOutcome.badValue) →
      ∃ sv, extract_series fs g = Except.ok (some sv)) ∧
    (sqllog_root ∈ gs.dirs → caseOutcome gs sqllog_root = CaseOutcome.missingFile →
      sqllog_run gs = Except.error
        (RunErr.exit "No estimates found in target/criterion/sqllog_from_file_1m")) ∧
    (sqllog_root ∈ gs.dirs → caseOutcome gs sqllog_root = CaseOutcome.noEstimate →
      sqllog_run gs = Except.error (RunErr.exit "Could not find median in estimates")) := by
  refine ⟨?_, ?_, ?_, ?_, ?_, ?_⟩
  · intro hroot hok
    unfold datetime_run
    rw [if_pos hroot, datetime_loop_ok fs (datetime_names fs) hok]
    rfl
  · intro hw hok
    unfold duckdb_run
    rw [if_pos hw, duckdb_all_ok fs duckdb_modes hok]
    rfl
  · intro base e rest sizes vals hd hor
    rcases hor with hc | hc
    · simp [extract_loop, hd, hc]
    · simp [extract_loop, hd, hc]
  · intro g hg hok
    obtain ⟨out, ho⟩ := extract_loop_ok fs (varied_root ++ [g])
      (List.insertionSort (fun a b => strLE a.name b.name = true)
        (fs.iterdir (varied_root ++ [g]))) [] [] hok
    refine ⟨out, ?_⟩
    unfold extract_series
    rw [if_pos hg, ho]
    rfl
  · intro h1 h2; simp [sqllog_run, h1, h2]
  · intro h1 h2; simp [sqllog_run, h1, h2]

theorem C3_amended_witness :
    datetime_run fsM = Except.ok
      (RunOut.mk [("case_a", 2)] ["Missing estimates for case_b"] datetime_image) ∧
    (∃ dout, duckdb_run fsM = Except.ok dout) ∧
    extract_loop fsM (varied_root ++ ["sqllog_parse_file"]) [Entry.mk "alpha" true] [] [] =
      extract_loop fsM (varied_root ++ ["sqllog_parse_file"]) [] [] [] ∧
    (∃ sv, extract_series fsM "sqllog_parse_file" = Except.ok (some sv)) ∧
    sqllog_run fsC3 = Except.error
      (RunErr.exit "No estimates found in target/criterion/sqllog_from_file_1m") := by
  have h := C3_amended fsM fsC3
  refine ⟨?_, ?_, ?_, ?_, ?_⟩
  · rw [h.1 (by decide) (by decide)]; rfl
  · exact ⟨_, h.2.1 (by decide) (by decide)⟩
  · exact h.2.2.1 (varied_root ++ ["sqllog_parse_file"]) (Entry.mk "alpha" true) [] [] []
      rfl (Or.inl rfl)
  · exact h.2.2.2.1 "sqllog_parse_file" (by decide) (by decide)
  · exact h.2.2.2.2.1 (by decide) (by decide)

/-- C7 amended: unit normalization preserves non-negativity, so in each of the
    three series-producing reports (datetime bar chart, duckdb mode-by-size
    lines, varied swept groups) every value stored in a series is non-negative
    whenever every raw extracted estimate is non-negative — the code does not
    enforce this, a negative point estimate is stored unchanged; and a case
    with no resolvable estimate never enters a series: the datetime report
    omits its name, the duckdb report omits its size from the plotted keys,
    and the varied loop appends nothing — skipped, never defaulted to zero. -/
theorem C7_amended (fs : FS) (v : ℚ)
    (hroot : datetime_root ∈ fs.dirs)
    (hok : ∀ n ∈ datetime_names fs,
      caseOutcome fs (datetime_root ++ [n]) ≠ CaseOutcome.badValue)
    (hnn : ∀ n ∈ datetime_names fs,
      outcomeNonneg (caseOutcome fs (datetime_root ++ [n])) = true) :
    (0 ≤ v → 0 ≤ normalizeUnits v) ∧
    datetime_run fs = Except.ok
      (RunOut.mk (datetime_resolved fs (datetime_names fs))
        (datetime_dropped fs (datetime_names fs)) datetime_image) ∧
    (∀ q ∈ datetime_resolved fs (datetime_names fs), 0 ≤ q.2) ∧
    (∀ n, (∀ t, caseOutcome fs (datetime_root ++ [n]) ≠ CaseOutcome.value t) →
      ∀ q ∈ datetime_resolved fs (datetime_names fs), q.1 ≠ n) ∧
    (duckdb_root ∈ fs.dirs →
      (∀ m ∈ duckdb_modes, ∀ s ∈ duckdb_sizes,
        caseOutcome fs (duckdb_root ++ [m, toString s]) ≠ CaseOutcome.badValue) →
      (∀ m ∈ duckdb_modes, ∀ s ∈ duckdb_sizes,
        outcomeNonneg (caseOutcome fs (duckdb_root ++ [m, toString s])) = true) →
      ∃ dout, duckdb_run fs = Except.ok dout ∧
        ∀ ms ∈ dout.series, (∀ y ∈ ms.ys, 0 ≤ y) ∧
          ∀ s ∈ duckdb_sizes, duckdb_resolvedP fs ms.mode s = false → s ∉ ms.xs) ∧
    (∀ g, varied_root ++ [g] ∈ fs.dirs →
      (∀ e ∈ List.insertionSort (fun a b => strLE a.name b.name = true)
          (fs.iterdir (varied_root ++ [g])),
        e.isDir = true →
          caseOutcome fs ((varied_root ++ [g]) ++ [e.name]) ≠ CaseOutcome.badValue) →
      (∀ e ∈ List.insertionSort (fun a b => strLE a.name b.name = true)
          (fs.iterdir (varied_root ++ [g])),
        e.isDir = true →
          outcomeNonneg (caseOutcome fs ((varied_root ++ [g]) ++ [e.name])) = true) →
      ∃ sv, extract_series fs g = Except.ok (some sv) ∧ ∀ q ∈ sv.2, 0 ≤ q) ∧
    (∀ (base : List String) (e : Entry) (rest : List Entry)
        (sizes : List Int) (vals : List ℚ), e.isDir = true →
      (caseOutcome fs (base ++ [e.name]) = CaseOutcome.missingFile ∨
       caseOutcome fs (base ++ [e.name]) = CaseOutcome.noEstimate) →
      extract_loop fs base (e :: rest) sizes vals = extract_loop fs base rest sizes vals) := by
  refine ⟨normalizeUnits_nonneg v, ?_, ?_, ?_, ?_, ?_, ?_⟩
  · unfold datetime_run
    rw [if_pos hroot, datetime_loop_ok fs (datetime_names fs) hok]
    rfl
  · intro q hq
    rw [datetime_resolved, List.mem_filterMap] at hq
    obtain ⟨n, hn, he⟩ := hq
    cases hc : caseOutcome fs (datetime_root ++ [n]) with
    | missingFile => rw [hc] at he; simp at he
    | noEstimate => rw [hc] at he; simp at he
    | badValue => rw [hc] at he; simp at he
    | value t =>
      rw [hc] at he
      simp only [Option.some.injEq] at he
      have ht := hnn n hn
      rw [hc] at ht
      simp only [outcomeNonneg, decide_eq_true_eq] at ht
      rw [← he]
      exact normalizeUnits_nonneg t ht
  · intro n hne q hq
    rw [datetime_resolved, List.mem_filterMap] at hq
    obtain ⟨n0, hn0, he⟩ := hq
    cases hc : caseOutcome fs (datetime_root ++ [n0]) with
    | missingFile => rw [hc] at he; simp at he
    | noEstimate => rw [hc] at he; simp at he
    | badValue => rw [hc] at he; simp at he
    | value t =>
      rw [hc] at he
      simp only [Option.some.injEq] at he
      intro hq1
      rw [← he] at hq1
      simp at hq1
      rw [hq1] at hc
      exact hne t hc
  · intro hw hbad hnnd
    refine ⟨DuckOut.mk
        ((duckdb_modes.map fun m => (m, duckdb_resolvedRaw fs m duckdb_sizes)).map
          fun mr => ModeSeries.mk mr.1 (duckdb_plot mr.2).1 (duckdb_plot mr.2).2)
        ((duckdb_modes.map fun m => duckdb_droppedLogs fs m duckdb_sizes).flatten)
        duckdb_image, ?_, ?_⟩
    · unfold duckdb_run
      rw [if_pos hw, duckdb_all_ok fs duckdb_modes hbad]
      rfl
    · intro ms hms
      simp only [List.map_map, List.mem_map, Function.comp] at hms
      obtain ⟨m, hm, hmse⟩ := hms
      have hloopok := duckdb_loop_ok fs m duckdb_sizes (fun s hs => hbad m hm s hs)
      have hkeys := duckdb_loop_keys fs m duckdb_sizes
        (duckdb_resolvedRaw fs m duckdb_sizes) (duckdb_droppedLogs fs m duckdb_sizes) hloopok
      have hx : (duckdb_plot (duckdb_resolvedRaw fs m duckdb_sizes)).1 =
          duckdb_sizes.filter fun s => duckdb_resolvedP fs m s := by
        rw [duckdb_plot_xs, hkeys]
        exact List.Sorted.insertionSort_eq (List.Pairwise.filter _ duckdb_sizes_sorted)
      rw [← hmse]
      constructor
      · intro y hy
        simp only [duckdb_plot, List.mem_map] at hy
        obtain ⟨x, hxmem, hxy⟩ := hy
        cases hlk : lookupInt (normalizeSeries (duckdb_resolvedRaw fs m duckdb_sizes)) x with
        | none => rw [hlk] at hxy; rw [← hxy]; rfl
        | some w =>
          rw [hlk] at hxy
          have hwmem := lookupInt_mem _ x w hlk
          simp only [normalizeSeries, List.mem_map] at hwmem
          obtain ⟨p, hp, hpe⟩ := hwmem
          have hpo := duckdb_resolvedRaw_mem fs m duckdb_sizes p hp
          have hpt := hnnd m hm p.1 hpo.1
          rw [hpo.2] at hpt
          simp only [outcomeNonneg, decide_eq_true_eq] at hpt
          have hw2 : w = normalizeUnits p.2 := by
            have h2 := congrArg Prod.snd hpe
            simpa using h2.symm
          rw [← hxy, Option.getD_some, hw2]
          exact normalizeUnits_nonneg p.2 hpt
      · intro s hs hfalse hmem
        rw [hx] at hmem
        have := (List.mem_filter.mp hmem).2
        rw [hfalse] at this
        exact Bool.false_ne_true this
  · intro g hg hbad hnnv
    obtain ⟨out, ho⟩ := extract_loop_ok fs (varied_root ++ [g])
      (List.insertionSort (fun a b => strLE a.name b.name = true)
        (fs.iterdir (varied_root ++ [g]))) [] [] hbad
    refine ⟨out, ?_, ?_⟩
    · unfold extract_series
      rw [if_pos hg, ho]
      rfl
    · exact extract_loop_nonneg fs (varied_root ++ [g]) _ [] [] out hnnv ho (by simp)
  · intro base e rest sizes vals hd hor
    rcases hor with hc | hc
    · simp [extract_loop, hd, hc]
    · simp [extract_loop, hd, hc]

theorem C7_amended_witness :
    ((0 : ℚ) ≤ normalizeUnits 0) ∧
    datetime_run fsM = Except.ok
      (RunOut.mk (datetime_resolved fsM (datetime_names fsM))
        (datetime_dropped fsM (datetime_names fsM)) datetime_image) ∧
    (∃ dout, duckdb_run fsM = Except.ok dout ∧
      ∀ ms ∈ dout.series, (∀ y ∈ ms.ys, 0 ≤ y) ∧
        ∀ s ∈ duckdb_sizes, duckdb_resolvedP fsM ms.mode s = false → s ∉ ms.xs) ∧
    (∃ sv, extract_series fsM "sqllog_parse_file" = Except.ok (some sv) ∧
      ∀ q ∈ sv.2, 0 ≤ q) := by
  have h := C7_amended fsM 0 (by decide) (by decide) (by decide)
  exact ⟨h.1 le_rfl, h.2.1,
    h.2.2.2.2.1 (by decide) (by decide) (by decide),
    h.2.2.2.2.2.1 "sqllog_parse_file" (by decide) (by decide) (by decide)⟩
